import Mathlib

/-!
Shallow embedding of the Smart-Attendance-System core
(`code.py` and `face_utils.py`).

The Excel ledger sheet is modelled structurally: the three fixed header
columns (`Student ID`, `Year`, `Registration Date`) are the fields of a
`StudentRow`, the date columns appended after them (columns 4..) are
`Sheet.dateCols` in left-to-right order, and each row's attendance cells
under those date columns are an association list keyed by the date string
(the sheet grid holds at most one cell per (row, date column), which the
association list mirrors).  All timestamps taken during one call to
`process_attendance` (`datetime.datetime.now()` at lines 218, 230, 262,
335, 339 of `code.py`) are modelled by the single `nowStr` argument:
only their presence, not their exact value, matters to any property here.

External effects that can raise (the Firebase client, `wb.save`) are
modelled by explicit outcome arguments (`CloudOutcome`,
`Except SaveError Unit`): the embedded functions are total, mirroring the
fact that the Python code catches every exception from those steps.
-/

/-- Association-list update: overwrite the first binding of key `k`,
or append a new binding at the end (one cell per key, like a sheet cell
write at a fixed column). -/
def setA {κ α : Type} [DecidableEq κ] (k : κ) (v : α) : List (κ × α) → List (κ × α)
  | [] => [(k, v)]
  | (k', v') :: rest => if k' = k then (k, v) :: rest else (k', v') :: setA k v rest

/-- Association-list lookup of the first binding of key `k`. -/
def getA {κ α : Type} [DecidableEq κ] (k : κ) : List (κ × α) → Option α
  | [] => none
  | (k', v') :: rest => if k' = k then some v' else getA k rest

/-- Number of bindings of key `k` in an association list. -/
def countKey {κ α : Type} [DecidableEq κ] (k : κ) : List (κ × α) → Nat
  | [] => 0
  | (k', _) :: rest => (if k' = k then 1 else 0) + countKey k rest

/-- Character of `s` at 0-based position `i` (Python `s[i]` for `i < len(s)`;
the default is never reached under the length guards of the source). -/
def charAt (s : String) (i : Nat) : Char := s.toList.getD i 'A'

/-- Python `int(c)` on a single character: its digit value, or a
`ValueError` (modelled as `none`) when the character is not a digit. -/
def toDigitVal (c : Char) : Option Int :=
  if c.isDigit then some ((c.toNat : Int) - 48) else none

/-- `code.py` lines 295-304 (new-student branch): the Year cell is
`str(5 - int(barcode[2]))` when the identifier has at least 3 characters
and its third character parses as a digit, else `"Not Specified"`. -/
def yearNew (barcode : String) : String :=
  if 3 ≤ barcode.length then
    match toDigitVal (charAt barcode 2) with
    | some d => toString (5 - d)
    | none => "Not Specified"
  else "Not Specified"

/-- `code.py` lines 307-315 (existing-student branch): the Year cell is
re-derived as `str(5 - int(barcode[1]))` when the identifier has at least
3 characters and `barcode[1]` parses as a digit; on a `ValueError` (or a
short identifier) the previous Year value is kept. -/
def yearUpd (barcode : String) (oldYear : String) : String :=
  if 3 ≤ barcode.length then
    match toDigitVal (charAt barcode 1) with
    | some d => toString (5 - d)
    | none => oldYear
  else oldYear

/-- One ledger row (row ≥ 2 of the sheet): the three fixed header columns
plus the attendance cells under the date columns, keyed by date string. -/
structure StudentRow where
  id : String
  year : String
  regDate : String
  att : List (String × String)
deriving Repr, DecidableEq

/-- The ledger sheet: the date header columns after the three fixed
headers (in left-to-right order) and the student rows (top to bottom). -/
structure Sheet where
  dateCols : List String
  rows : List StudentRow
deriving Repr, DecidableEq

/-- `code.py` lines 267-281: scan the header row for `dateStr`; if absent,
append it as the next column.  (If present, nothing is added.) -/
def addDateCol (dateStr : String) : List String → List String
  | [] => [dateStr]
  | d :: ds => if d = dateStr then d :: ds else d :: addDateCol dateStr ds

/-- `code.py` lines 283-318: scan the rows for the first one whose
column-1 value equals `barcode`; if none, append a new row (id, derived
Year, registration timestamp) and write the time into its date cell; if
found, re-derive the Year and overwrite the date cell of that row. -/
def markRows (barcode dateStr timeStr nowStr : String) : List StudentRow → List StudentRow
  | [] => [{ id := barcode, year := yearNew barcode, regDate := nowStr, att := setA dateStr timeStr [] }]
  | r :: rs =>
    if r.id = barcode then
      { r with year := yearUpd barcode r.year, att := setA dateStr timeStr r.att } :: rs
    else
      r :: markRows barcode dateStr timeStr nowStr rs

/-- The in-memory sheet mutation of one `process_attendance` call
(`code.py` lines 266-318): ensure the date column, then find-or-append
the student row and write the time cell. -/
def markSheet (barcode dateStr timeStr nowStr : String) (s : Sheet) : Sheet :=
  { dateCols := addDateCol dateStr s.dateCols,
    rows := markRows barcode dateStr timeStr nowStr s.rows }

/-- First row whose identifier cell equals `b` (the row-search loop of
`code.py` lines 284-288). -/
def findStudent (b : String) : List StudentRow → Option StudentRow
  | [] => none
  | r :: rs => if r.id = b then some r else findStudent b rs

/-- Number of rows whose identifier cell equals `b`. -/
def countId (b : String) : List StudentRow → Nat
  | [] => 0
  | r :: rs => (if r.id = b then 1 else 0) + countId b rs

/-- Number of header columns equal to `d`. -/
def countD (d : String) : List String → Nat
  | [] => 0
  | x :: xs => (if x = d then 1 else 0) + countD d xs

/-- The time recorded for student `b` on date `d`: the date cell of the
first row whose identifier is `b`. -/
def getTime (s : Sheet) (b d : String) : Option String :=
  match findStudent b s.rows with
  | some r => getA d r.att
  | none => none

/-- How many cells student `b`'s row holds under date column `d`
(0 when the student has no row). -/
def cellCount (s : Sheet) (b d : String) : Nat :=
  match findStudent b s.rows with
  | some r => countKey d r.att
  | none => 0

/-- Accumulating left fold of `addDateCol` over the dates of a scan
sequence: the header state after processing the sequence. -/
def foldDates (acc : List String) : List String → List String
  | [] => acc
  | d :: ds => foldDates (addDateCol d acc) ds

/-- First-seen deduplication of a date sequence: each date is kept at the
position of its first occurrence, later occurrences add nothing. -/
def dedupFirst (ds : List String) : List String := foldDates [] ds

/-- The record payload written to the remote store for one scan
(`code.py` lines 215-219). -/
structure CloudRecord where
  time : String
  status : String
  lastUpdated : String
deriving Repr, DecidableEq

/-- `wb.save` outcomes distinguished by `code.py` lines 329-340:
success, a `PermissionError`, or any other exception. -/
inductive SaveError where
  | permission
  | other (msg : String)
deriving Repr, DecidableEq

/-- Outcome of the Firebase steps inside the `try` of
`update_cloud_storage` (`code.py` lines 210-225): everything succeeded,
or an exception was raised — either before the first `set` took effect
(`firstWriteApplied = false`, covering `get_database` and the first
`set`) or between the two `set` calls (`firstWriteApplied = true`). -/
inductive CloudOutcome where
  | ok
  | fail (firstWriteApplied : Bool) (e : String)
deriving Repr

/-- The whole observable state of one session: the in-memory sheet, the
two remote key families (`attendance/<date>/<id>` and
`attendance/students/<id>/<date>`), the durable `error_log.txt` lines,
and the last successfully saved copy of the workbook. -/
structure SysState where
  sheet : Sheet
  cloudByDate : List ((String × String) × CloudRecord)
  cloudByStudent : List ((String × String) × CloudRecord)
  errorLog : List String
  savedFile : Option Sheet

/-- The error-log line of `code.py` line 230. -/
def cloudErrLine (nowStr barcode e : String) : String :=
  nowStr ++ ": Error updating cloud storage for " ++ barcode ++ ": " ++ e

/-- The error-log lines of `code.py` lines 335 and 339-340. -/
def saveErrLine (nowStr barcode : String) : SaveError → String
  | .permission => nowStr ++ ": Excel file permission error for " ++ barcode
  | .other msg => nowStr ++ ": Excel save error for " ++ barcode ++ ": " ++ msg

/-- `update_cloud_storage` (`code.py` lines 208-230): on success, write
the payload under both key families; on an exception, keep whatever
writes already took effect, append a timestamped line to the error log,
and return normally (the `except` swallows the exception). -/
def update_cloud_storage (barcode dateStr timeStr nowStr : String)
    (outcome : CloudOutcome) (st : SysState) : SysState :=
  let data : CloudRecord := { time := timeStr, status := "present", lastUpdated := nowStr }
  match outcome with
  | .ok =>
      { st with
        cloudByDate := setA (dateStr, barcode) data st.cloudByDate,
        cloudByStudent := setA (barcode, dateStr) data st.cloudByStudent }
  | .fail firstWriteApplied e =>
      { st with
        cloudByDate :=
          if firstWriteApplied then setA (dateStr, barcode) data st.cloudByDate
          else st.cloudByDate,
        errorLog := st.errorLog ++ [cloudErrLine nowStr barcode e] }

/-- The `wb.save` block of `process_attendance` (`code.py` lines
328-340): on success the workbook file now holds the current sheet; on
either exception a timestamped line is appended to the error log, the
file keeps its previous contents, and no exception escapes. -/
def saveExcel (barcode nowStr : String) (outcome : Except SaveError Unit)
    (st : SysState) : SysState :=
  match outcome with
  | .ok _ => { st with savedFile := some st.sheet }
  | .error e => { st with errorLog := st.errorLog ++ [saveErrLine nowStr barcode e] }

/-- `process_attendance` (`code.py` lines 257-346): guard against an
empty identifier, mutate the sheet, replicate to the remote store, then
save the workbook — the last two steps with their exception handling. -/
def process_attendance (barcode dateStr timeStr nowStr : String)
    (cloud : CloudOutcome) (save : Except SaveError Unit) (st : SysState) : SysState :=
  if barcode = "" then st
  else
    saveExcel barcode nowStr save
      (update_cloud_storage barcode dateStr timeStr nowStr cloud
        { st with sheet := markSheet barcode dateStr timeStr nowStr st.sheet })

/-- One scan event of the session loop: the resolved identifier, the
date/time strings derived from the scan's wall-clock time, and the
outcomes of the two fallible external steps. -/
structure Scan where
  barcode : String
  dateStr : String
  timeStr : String
  nowStr : String
  cloud : CloudOutcome
  save : Except SaveError Unit

/-- The session loop's successive `process_attendance` calls
(`code.py` lines 370-390), one per scan event. -/
def processScans : List Scan → SysState → SysState
  | [], st => st
  | sc :: rest, st =>
      processScans rest
        (process_attendance sc.barcode sc.dateStr sc.timeStr sc.nowStr sc.cloud sc.save st)

/-- A session state with a freshly initialized sheet (headers only, no
date columns, no rows), empty remote store and error log. -/
def initState : SysState :=
  { sheet := { dateCols := [], rows := [] },
    cloudByDate := [], cloudByStudent := [], errorLog := [], savedFile := none }

/-!
`face_utils.py`.  A face signature is an opaque value of some type `Enc`
(the library's 128-dimensional vector); its metric is passed in as
`dist`, valued on the normalized distance scale.  The library call
`face_recognition.face_encodings(image, face_locations)` is aligned with
`face_locations`, so an image is represented by the list of signatures of
its detected face regions (`faces`): no face region detected means
`faces = []`.
-/

/-- Modelled from the spec: `face_recognition.compare_faces` (the matcher
rule of the external library, not part of this repository) reports a
match exactly when the distance between the two signatures is below the
tolerance. -/
def compare_face {Enc : Type} (dist : Enc → Enc → ℚ) (known target : Enc) (tol : ℚ) : Bool :=
  decide (dist known target < tol)

/-- Inner loop of `recognize_face` (`face_utils.py` lines 45-48): walk the
stored encodings in order and return the first identifier whose signature
matches the extracted one at tolerance 0.5. -/
def recognizeInStore {Enc : Type} (dist : Enc → Enc → ℚ) (target : Enc) :
    List (String × Enc) → Option String
  | [] => none
  | (roll, known) :: rest =>
    if compare_face dist known target ((1 : ℚ) / 2) then some roll
    else recognizeInStore dist target rest

/-- Outer loop of `recognize_face` (`face_utils.py` lines 44-48): try each
extracted face signature in turn against the whole store. -/
def recognizeFaces {Enc : Type} (dist : Enc → Enc → ℚ) (store : List (String × Enc)) :
    List Enc → Option String
  | [] => none
  | e :: es =>
    match recognizeInStore dist e store with
    | some roll => some roll
    | none => recognizeFaces dist store es

/-- `recognize_face` (`face_utils.py` lines 36-49): `None` when the
stored mapping is empty or no face region is detected, otherwise the
first matching stored identifier. -/
def recognize_face {Enc : Type} (dist : Enc → Enc → ℚ) (store : List (String × Enc))
    (faces : List Enc) : Option String :=
  match store with
  | [] => none
  | _ :: _ =>
    match faces with
    | [] => none
    | _ :: _ => recognizeFaces dist store faces

/-- `register_face` (`face_utils.py` lines 23-34): fail without touching
the encodings mapping unless exactly one face region was detected; on
success store the signature under the identifier (overwriting any
previous one) and report success.  The returned mapping is the Identity
Store as persisted after the call. -/
def register_face {Enc : Type} (store : List (String × Enc)) (faces : List Enc)
    (roll : String) : (Bool × String) × List (String × Enc) :=
  match faces with
  | [e] => ((true, "Face registered successfully."), setA roll e store)
  | _ => ((false, "Please ensure only one face is visible for registration."), store)

/-!  Basic lemmas about the association-list and sheet primitives. -/

theorem getA_setA {κ α : Type} [DecidableEq κ] (k : κ) (v : α) (l : List (κ × α)) :
    getA k (setA k v l) = some v := by
  induction l with
  | nil => simp [setA, getA]
  | cons p rest ih =>
    by_cases h : p.1 = k
    · simp [setA, getA, h]
    · simpa [setA, getA, h] using ih

theorem countKey_setA {κ α : Type} [DecidableEq κ] (k : κ) (v : α) (l : List (κ × α)) :
    countKey k (setA k v l) = if countKey k l = 0 then 1 else countKey k l := by
  induction l with
  | nil => simp [setA, countKey]
  | cons p rest ih =>
    by_cases h : p.1 = k
    · simp [setA, countKey, h]
    · simp [setA, countKey, h, ih]

theorem findStudent_markRows (b d t n : String) (rows : List StudentRow) :
    findStudent b (markRows b d t n rows) =
      some (match findStudent b rows with
        | none => { id := b, year := yearNew b, regDate := n, att := setA d t [] }
        | some r => { r with year := yearUpd b r.year, att := setA d t r.att }) := by
  induction rows with
  | nil => simp [markRows, findStudent]
  | cons r rs ih =>
    by_cases h : r.id = b
    · simp [markRows, findStudent, h]
    · simp [markRows, findStudent, h, ih]

theorem countId_markRows (b d t n : String) (rows : List StudentRow) :
    countId b (markRows b d t n rows) =
      countId b rows + (if findStudent b rows = none then 1 else 0) := by
  induction rows with
  | nil => simp [markRows, countId, findStudent]
  | cons r rs ih =>
    by_cases h : r.id = b
    · simp [markRows, countId, findStudent, h]
    · simp [markRows, countId, findStudent, h, ih]

theorem findStudent_eq_none_iff (b : String) (rows : List StudentRow) :
    findStudent b rows = none ↔ countId b rows = 0 := by
  induction rows with
  | nil => simp [findStudent, countId]
  | cons r rs ih =>
    by_cases h : r.id = b
    · simp [findStudent, countId, h]
    · simp [findStudent, countId, h, ih]

theorem findStudent_mem (b : String) (rows : List StudentRow) (r : StudentRow)
    (h : findStudent b rows = some r) : r ∈ rows := by
  induction rows with
  | nil => simp [findStudent] at h
  | cons x xs ih =>
    by_cases hx : x.id = b
    · simp [findStudent, hx] at h
      simp [← h]
    · simp [findStudent, hx] at h
      exact List.mem_cons_of_mem x (ih h)

theorem countD_addDateCol (d : String) (l : List String) :
    countD d (addDateCol d l) = if countD d l = 0 then 1 else countD d l := by
  induction l with
  | nil => simp [addDateCol, countD]
  | cons x xs ih =>
    by_cases h : x = d
    · simp [addDateCol, countD, h]
    · simp [addDateCol, countD, h, ih]

theorem mem_addDateCol (x d : String) (l : List String) :
    x ∈ addDateCol d l ↔ x ∈ l ∨ x = d := by
  induction l with
  | nil => simp [addDateCol]
  | cons y ys ih =>
    by_cases h : y = d
    · subst h
      simp [addDateCol]
      tauto
    · simp [addDateCol, h, ih]
      tauto

theorem nodup_addDateCol (d : String) (l : List String) (h : l.Nodup) :
    (addDateCol d l).Nodup := by
  induction l with
  | nil => simp [addDateCol]
  | cons y ys ih =>
    rw [List.nodup_cons] at h
    by_cases hy : y = d
    · simp [addDateCol, hy, List.nodup_cons]
      exact ⟨by simpa [hy] using h.1, h.2⟩
    · rw [addDateCol]
      rw [if_neg hy, List.nodup_cons, mem_addDateCol]
      exact ⟨by tauto, ih h.2⟩


theorem countD_eq_zero_of_not_mem (x : String) (l : List String) (h : x ∉ l) :
    countD x l = 0 := by
  induction l with
  | nil => simp [countD]
  | cons y ys ih =>
    simp only [List.mem_cons, not_or] at h
    simp [countD, Ne.symm h.1, ih h.2]

theorem countD_eq_one_of_nodup_mem (x : String) (l : List String)
    (hd : l.Nodup) (h : x ∈ l) : countD x l = 1 := by
  induction l with
  | nil => simp at h
  | cons y ys ih =>
    rw [List.nodup_cons] at hd
    rcases List.mem_cons.mp h with h1 | h2
    · subst h1
      simp [countD, countD_eq_zero_of_not_mem x ys hd.1]
    · have hxy : y ≠ x := fun he => hd.1 (he ▸ h2)
      simp [countD, hxy, ih hd.2 h2]

theorem mem_foldDates (x : String) (acc ds : List String) :
    x ∈ foldDates acc ds ↔ x ∈ acc ∨ x ∈ ds := by
  induction ds generalizing acc with
  | nil => simp [foldDates]
  | cons d rest ih =>
    rw [foldDates, ih, mem_addDateCol]
    simp
    tauto

theorem nodup_foldDates (acc ds : List String) (h : acc.Nodup) :
    (foldDates acc ds).Nodup := by
  induction ds generalizing acc with
  | nil => simpa [foldDates] using h
  | cons d rest ih => exact ih (addDateCol d acc) (nodup_addDateCol d acc h)

theorem sheet_update_cloud_storage (b d t n : String) (co : CloudOutcome) (st : SysState) :
    (update_cloud_storage b d t n co st).sheet = st.sheet := by
  cases co <;> rfl

theorem errorLog_update_cloud_ok (b d t n : String) (st : SysState) :
    (update_cloud_storage b d t n CloudOutcome.ok st).errorLog = st.errorLog := rfl

theorem errorLog_update_cloud_fail (b d t n : String) (fa : Bool) (e : String) (st : SysState) :
    (update_cloud_storage b d t n (CloudOutcome.fail fa e) st).errorLog =
      st.errorLog ++ [cloudErrLine n b e] := rfl

theorem sheet_saveExcel (b n : String) (so : Except SaveError Unit) (st : SysState) :
    (saveExcel b n so st).sheet = st.sheet := by
  cases so <;> rfl

theorem mem_errorLog_saveExcel (x b n : String) (so : Except SaveError Unit) (st : SysState)
    (h : x ∈ st.errorLog) : x ∈ (saveExcel b n so st).errorLog := by
  cases so with
  | ok u => exact h
  | error e => exact List.mem_append_left _ h

theorem savedFile_update_cloud_storage (b d t n : String) (co : CloudOutcome) (st : SysState) :
    (update_cloud_storage b d t n co st).savedFile = st.savedFile := by
  cases co <;> rfl

theorem process_attendance_sheet (b d t n : String) (co : CloudOutcome)
    (so : Except SaveError Unit) (st : SysState) (hb : b ≠ "") :
    (process_attendance b d t n co so st).sheet = markSheet b d t n st.sheet := by
  rw [process_attendance, if_neg hb, sheet_saveExcel, sheet_update_cloud_storage]

theorem getTime_markSheet (b d t n : String) (s : Sheet) :
    getTime (markSheet b d t n s) b d = some t := by
  rw [getTime, markSheet]
  rw [findStudent_markRows]
  cases h : findStudent b s.rows <;> simp [getA_setA]

theorem findStudent_markRows_none (b d t n : String) (rows : List StudentRow)
    (hf : findStudent b rows = none) :
    findStudent b (markRows b d t n rows) =
      some { id := b, year := yearNew b, regDate := n, att := setA d t [] } := by
  rw [findStudent_markRows, hf]

theorem findStudent_markRows_some (b d t n : String) (rows : List StudentRow) (r0 : StudentRow)
    (hf : findStudent b rows = some r0) :
    findStudent b (markRows b d t n rows) =
      some { r0 with year := yearUpd b r0.year, att := setA d t r0.att } := by
  rw [findStudent_markRows, hf]

theorem markSheet_cell (b d t n : String) (s : Sheet)
    (hatt : ∀ r ∈ s.rows, countKey d r.att ≤ 1) :
    getTime (markSheet b d t n s) b d = some t ∧ cellCount (markSheet b d t n s) b d = 1 := by
  cases hf : findStudent b s.rows with
  | none =>
    have h := findStudent_markRows_none b d t n s.rows hf
    constructor
    · simp only [getTime, markSheet, h, getA_setA]
    · simp only [cellCount, markSheet, h, countKey_setA]
      simp [countKey]
  | some r0 =>
    have h := findStudent_markRows_some b d t n s.rows r0 hf
    have h0 := hatt r0 (findStudent_mem b s.rows r0 hf)
    constructor
    · simp only [getTime, markSheet, h, getA_setA]
    · simp only [cellCount, markSheet, h, countKey_setA]
      split <;> omega

theorem hatt_markRows (b d t n : String) (rows : List StudentRow)
    (hatt : ∀ r ∈ rows, countKey d r.att ≤ 1) :
    ∀ r ∈ markRows b d t n rows, countKey d r.att ≤ 1 := by
  induction rows with
  | nil =>
    intro r hr
    simp only [markRows, List.mem_singleton] at hr
    subst hr
    rw [countKey_setA]
    simp [countKey]
  | cons x xs ih =>
    intro r hr
    by_cases hx : x.id = b
    · rw [markRows, if_pos hx] at hr
      rcases List.mem_cons.mp hr with h1 | h2
      · subst h1
        show countKey d (setA d t x.att) ≤ 1
        rw [countKey_setA]
        have := hatt x (List.mem_cons_self x xs)
        split <;> omega
      · exact hatt r (List.mem_cons_of_mem x h2)
    · rw [markRows, if_neg hx] at hr
      rcases List.mem_cons.mp hr with h1 | h2
      · subst h1
        exact hatt r (List.mem_cons_self r xs)
      · exact ih (fun q hq => hatt q (List.mem_cons_of_mem x hq)) r h2

theorem countId_markSheet (b d t n : String) (s : Sheet) (h : countId b s.rows ≤ 1) :
    countId b (markSheet b d t n s).rows = 1 := by
  show countId b (markRows b d t n s.rows) = 1
  rw [countId_markRows]
  by_cases hf : findStudent b s.rows = none
  · rw [(findStudent_eq_none_iff b s.rows).mp hf, if_pos hf]
  · rw [if_neg hf]
    have h0 : countId b s.rows ≠ 0 := fun hz => hf ((findStudent_eq_none_iff b s.rows).mpr hz)
    omega

theorem countD_markSheet (b d t n : String) (s : Sheet) (h : countD d s.dateCols ≤ 1) :
    countD d (markSheet b d t n s).dateCols = 1 := by
  show countD d (addDateCol d s.dateCols) = 1
  rw [countD_addDateCol]
  split <;> omega

theorem savedFile_saveExcel_error (b n : String) (e : SaveError) (st : SysState) :
    (saveExcel b n (Except.error e) st).savedFile = st.savedFile := rfl

theorem errorLog_saveExcel_error (b n : String) (e : SaveError) (st : SysState) :
    (saveExcel b n (Except.error e) st).errorLog = st.errorLog ++ [saveErrLine n b e] := rfl

theorem processScans_dateCols (scans : List Scan) (st : SysState)
    (h : ∀ sc ∈ scans, sc.barcode ≠ "") :
    (processScans scans st).sheet.dateCols =
      foldDates st.sheet.dateCols (scans.map (fun sc => sc.dateStr)) := by
  induction scans generalizing st with
  | nil => rfl
  | cons sc rest ih =>
    have hb : sc.barcode ≠ "" := h sc (List.mem_cons_self sc rest)
    rw [processScans, ih _ (fun q hq => h q (List.mem_cons_of_mem sc hq))]
    rw [process_attendance_sheet _ _ _ _ _ _ _ hb]
    rfl

theorem yearNew_default (barcode : String)
    (h : barcode.length < 3 ∨ (charAt barcode 2).isDigit = false) :
    yearNew barcode = "Not Specified" := by
  rcases h with h | h
  · rw [yearNew, if_neg (by omega)]
  · by_cases h3 : 3 ≤ barcode.length
    · rw [yearNew, if_pos h3]
      simp [toDigitVal, h]
    · rw [yearNew, if_neg h3]

theorem recognizeInStore_mem {Enc : Type} (dist : Enc → Enc → ℚ) (target : Enc)
    (store : List (String × Enc)) (roll : String)
    (h : recognizeInStore dist target store = some roll) : roll ∈ store.map Prod.fst := by
  induction store with
  | nil => simp [recognizeInStore] at h
  | cons p rest ih =>
    obtain ⟨r', k⟩ := p
    rw [recognizeInStore] at h
    by_cases hc : compare_face dist k target ((1 : ℚ) / 2) = true
    · rw [if_pos hc] at h
      injection h with h
      simp [h]
    · rw [if_neg hc] at h
      exact List.mem_cons_of_mem _ (ih h)

theorem recognizeFaces_mem {Enc : Type} (dist : Enc → Enc → ℚ) (store : List (String × Enc))
    (faces : List Enc) (roll : String)
    (h : recognizeFaces dist store faces = some roll) : roll ∈ store.map Prod.fst := by
  induction faces with
  | nil => simp [recognizeFaces] at h
  | cons e es ih =>
    rw [recognizeFaces] at h
    cases hc : recognizeInStore dist e store with
    | some r =>
      rw [hc] at h
      injection h with h
      exact h ▸ recognizeInStore_mem dist e store r hc
    | none =>
      rw [hc] at h
      exact ih h

/-- Claim C9: `recognize_face` returns either no result or an identifier
that is a key of the stored encodings mapping, and it returns no result
whenever the stored mapping is empty or no face region is detected. -/
theorem recognize_face_membership {Enc : Type} (dist : Enc → Enc → ℚ)
    (store : List (String × Enc)) (faces : List Enc) :
    (∀ roll, recognize_face dist store faces = some roll → roll ∈ store.map Prod.fst) ∧
    (store = [] → recognize_face dist store faces = none) ∧
    (faces = [] → recognize_face dist store faces = none) := by
  refine ⟨?_, ?_, ?_⟩
  · intro roll h
    cases store with
    | nil => simp [recognize_face] at h
    | cons p rest =>
      cases faces with
      | nil => simp [recognize_face] at h
      | cons e es =>
        rw [recognize_face] at h
        exact recognizeFaces_mem dist (p :: rest) (e :: es) roll h
  · intro h
    subst h
    rfl
  · intro h
    subst h
    cases store <;> rfl

theorem recognize_face_membership_witness :
    recognize_face (fun _ _ => (0 : ℚ)) ([] : List (String × ℚ)) [(0 : ℚ)] = none :=
  (recognize_face_membership (fun _ _ => (0 : ℚ)) [] [(0 : ℚ)]).2.1 rfl

/-- Claim C5: with a single stored signature and a single extracted
signature, recognition reports the match exactly when the distance is
strictly below the tolerance 0.5 on the normalized distance scale, and
reports no match when the distance is at or above the tolerance.  (The
comparison rule itself, `compare_face`, is modelled from the spec since
`face_recognition.compare_faces` is an external library call.) -/
theorem matcher_threshold {Enc : Type} (dist : Enc → Enc → ℚ) (roll : String) (known target : Enc) :
    (recognize_face dist [(roll, known)] [target] = some roll ↔
      dist known target < (1 : ℚ) / 2) ∧
    ((1 : ℚ) / 2 ≤ dist known target → recognize_face dist [(roll, known)] [target] = none) := by
  have key : recognize_face dist [(roll, known)] [target] =
      if dist known target < (1 : ℚ) / 2 then some roll else none := by
    by_cases hc : dist known target < (1 : ℚ) / 2
    · have hcf : compare_face dist known target ((1 : ℚ) / 2) = true := by
        rw [compare_face]
        exact decide_eq_true hc
      rw [if_pos hc]
      rw [recognize_face, recognizeFaces, recognizeInStore, hcf]
      rfl
    · have hcf : compare_face dist known target ((1 : ℚ) / 2) = false := by
        rw [compare_face]
        exact decide_eq_false hc
      rw [if_neg hc]
      rw [recognize_face, recognizeFaces, recognizeInStore, hcf]
      rfl
  constructor
  · constructor
    · intro h
      by_contra hlt
      rw [key, if_neg hlt] at h
      exact Option.noConfusion h
    · intro hlt
      rw [key, if_pos hlt]
  · intro hge
    rw [key, if_neg (not_lt.mpr hge)]

theorem matcher_threshold_witness :
    recognize_face (fun _ _ => (1 : ℚ)) [("R1", (0 : ℚ))] [(0 : ℚ)] = none :=
  (matcher_threshold (fun _ _ => (1 : ℚ)) "R1" (0 : ℚ) (0 : ℚ)).2 (by norm_num)

/-- Claim C3: when the number of detected face regions is not exactly
one, `register_face` returns a failure with the ambiguity message and the
Identity Store mapping is returned completely unchanged. -/
theorem registration_rejection {Enc : Type} (store : List (String × Enc)) (faces : List Enc)
    (roll : String) (h : faces.length ≠ 1) :
    register_face store faces roll =
      ((false, "Please ensure only one face is visible for registration."), store) := by
  cases faces with
  | nil => rfl
  | cons e rest =>
    cases rest with
    | nil => exact absurd rfl h
    | cons e2 r2 => rfl

theorem registration_rejection_witness :
    register_face [("S1", (0 : ℚ))] [(0 : ℚ), (1 : ℚ)] "X" =
      ((false, "Please ensure only one face is visible for registration."), [("S1", (0 : ℚ))]) :=
  registration_rejection [("S1", (0 : ℚ))] [(0 : ℚ), (1 : ℚ)] "X" (by decide)

/-- Claim C6: on the row-creation path, an identifier shorter than 3
characters — or one whose third character is not a digit — gets the
default derived Year value, and the operation is total (no error). -/
theorem short_identifier_default (barcode d t n : String) (s : Sheet)
    (hnew : findStudent barcode s.rows = none)
    (h : barcode.length < 3 ∨ (charAt barcode 2).isDigit = false) :
    Option.map StudentRow.year (findStudent barcode (markSheet barcode d t n s).rows) =
      some "Not Specified" := by
  have hm := findStudent_markRows_none barcode d t n s.rows hnew
  show Option.map StudentRow.year (findStudent barcode (markRows barcode d t n s.rows)) = _
  rw [hm]
  simp [yearNew_default barcode h]

theorem short_identifier_default_witness :
    Option.map StudentRow.year
      (findStudent "AB" (markSheet "AB" "2026-01-01" "09:00:00" "m1"
        { dateCols := [], rows := [] }).rows) = some "Not Specified" :=
  short_identifier_default "AB" "2026-01-01" "09:00:00" "m1"
    { dateCols := [], rows := [] } rfl (Or.inl (by decide))

/-- Claim C2 (refuted by the code, which contradicts its own comments
"Calculate year as 5 minus 3rd character" and "Keep existing year value
if 3rd character is not a number"): creating the row for identifier
"A12" derives Year "3" from the third character '2', but re-scanning the
same identifier on the same day overwrites Year with "4", derived from
the SECOND character '1' — the two paths do not use the same character
position. -/
theorem derived_field_offset_mismatch :
    (markSheet "A12" "2026-01-01" "09:00:00" "m1"
      { dateCols := [], rows := [] }).rows.map StudentRow.year = ["3"] ∧
    (markSheet "A12" "2026-01-01" "09:10:00" "m2"
      (markSheet "A12" "2026-01-01" "09:00:00" "m1"
        { dateCols := [], rows := [] })).rows.map StudentRow.year = ["4"] := by
  constructor <;> rfl

/-- Claim C10: for an empty identifier, `process_attendance` returns
immediately: the sheet, the remote store, the error log and the saved
workbook are all exactly as before. -/
theorem empty_identifier_guard (d t n : String) (co : CloudOutcome)
    (so : Except SaveError Unit) (st : SysState) :
    process_attendance "" d t n co so st = st := by
  rw [process_attendance, if_pos rfl]

/-- Claim C4: when the remote replication step raises (at any point, with
or without a partial first write), the exception is swallowed inside
`update_cloud_storage`, a timestamped line is appended to the error log,
and the ledger cell for this (identifier, date) still holds the time
written by this scan when `process_attendance` returns. -/
theorem sync_failure_isolation (b d t n : String) (fa : Bool) (e : String)
    (so : Except SaveError Unit) (st : SysState) (hb : b ≠ "") :
    getTime (process_attendance b d t n (CloudOutcome.fail fa e) so st).sheet b d = some t ∧
    cloudErrLine n b e ∈ (process_attendance b d t n (CloudOutcome.fail fa e) so st).errorLog := by
  constructor
  · rw [process_attendance_sheet b d t n _ so st hb]
    exact getTime_markSheet b d t n st.sheet
  · rw [process_attendance, if_neg hb]
    apply mem_errorLog_saveExcel
    rw [errorLog_update_cloud_fail]
    exact List.mem_append_right _ (List.mem_singleton.mpr rfl)

theorem sync_failure_isolation_witness :
    getTime (process_attendance "A12" "2026-01-01" "09:00:00" "m1"
      (CloudOutcome.fail false "network down") (Except.ok ()) initState).sheet
      "A12" "2026-01-01" = some "09:00:00" ∧
    cloudErrLine "m1" "A12" "network down" ∈
      (process_attendance "A12" "2026-01-01" "09:00:00" "m1"
        (CloudOutcome.fail false "network down") (Except.ok ()) initState).errorLog :=
  sync_failure_isolation "A12" "2026-01-01" "09:00:00" "m1" false "network down"
    (Except.ok ()) initState (by decide)

/-- Claim C8: when saving the workbook fails (permission error or any
other exception), the exception is caught, a timestamped entry with the
reason is appended to the error log, the in-memory sheet produced by the
scan is retained unchanged, and the previously saved file contents are
untouched — the call returns normally instead of crashing the loop. -/
theorem persistence_failure_tolerance (b d t n : String) (co : CloudOutcome) (err : SaveError)
    (st : SysState) (hb : b ≠ "") :
    (process_attendance b d t n co (Except.error err) st).sheet = markSheet b d t n st.sheet ∧
    (process_attendance b d t n co (Except.error err) st).savedFile = st.savedFile ∧
    saveErrLine n b err ∈ (process_attendance b d t n co (Except.error err) st).errorLog := by
  refine ⟨process_attendance_sheet b d t n co _ st hb, ?_, ?_⟩
  · rw [process_attendance, if_neg hb]
    rw [savedFile_saveExcel_error, savedFile_update_cloud_storage]
  · rw [process_attendance, if_neg hb]
    rw [errorLog_saveExcel_error]
    exact List.mem_append_right _ (List.mem_singleton.mpr rfl)

theorem persistence_failure_tolerance_witness :
    (process_attendance "A12" "2026-01-01" "09:00:00" "m1" CloudOutcome.ok
      (Except.error SaveError.permission) initState).sheet =
      markSheet "A12" "2026-01-01" "09:00:00" "m1" initState.sheet ∧
    (process_attendance "A12" "2026-01-01" "09:00:00" "m1" CloudOutcome.ok
      (Except.error SaveError.permission) initState).savedFile = initState.savedFile ∧
    saveErrLine "m1" "A12" SaveError.permission ∈
      (process_attendance "A12" "2026-01-01" "09:00:00" "m1" CloudOutcome.ok
        (Except.error SaveError.permission) initState).errorLog :=
  persistence_failure_tolerance "A12" "2026-01-01" "09:00:00" "m1" CloudOutcome.ok
    SaveError.permission initState (by decide)

/-- Claim C1: starting from a sheet with at most one row for the student,
at most one column for the date, and at most one cell per row under that
date, marking the same student twice on the same date leaves exactly one
row for that student and exactly one column for that date, and the
student's single cell under that date holds the time of the second
(later) invocation. -/
theorem idempotent_marking (b d t1 t2 n1 n2 : String) (co1 co2 : CloudOutcome)
    (so1 so2 : Except SaveError Unit) (st : SysState) (hb : b ≠ "")
    (hrow : countId b st.sheet.rows ≤ 1) (hcol : countD d st.sheet.dateCols ≤ 1)
    (hatt : ∀ r ∈ st.sheet.rows, countKey d r.att ≤ 1) :
    countId b (process_attendance b d t2 n2 co2 so2
      (process_attendance b d t1 n1 co1 so1 st)).sheet.rows = 1 ∧
    countD d (process_attendance b d t2 n2 co2 so2
      (process_attendance b d t1 n1 co1 so1 st)).sheet.dateCols = 1 ∧
    getTime (process_attendance b d t2 n2 co2 so2
      (process_attendance b d t1 n1 co1 so1 st)).sheet b d = some t2 ∧
    cellCount (process_attendance b d t2 n2 co2 so2
      (process_attendance b d t1 n1 co1 so1 st)).sheet b d = 1 := by
  have hsheet1 := process_attendance_sheet b d t1 n1 co1 so1 st hb
  have hsheet2 := process_attendance_sheet b d t2 n2 co2 so2
    (process_attendance b d t1 n1 co1 so1 st) hb
  rw [hsheet2, hsheet1]
  have hrow1 : countId b (markSheet b d t1 n1 st.sheet).rows = 1 :=
    countId_markSheet b d t1 n1 st.sheet hrow
  have hcol1 : countD d (markSheet b d t1 n1 st.sheet).dateCols = 1 :=
    countD_markSheet b d t1 n1 st.sheet hcol
  have hatt1 : ∀ r ∈ (markSheet b d t1 n1 st.sheet).rows, countKey d r.att ≤ 1 :=
    hatt_markRows b d t1 n1 st.sheet.rows hatt
  have hcell := markSheet_cell b d t2 n2 (markSheet b d t1 n1 st.sheet) hatt1
  exact ⟨countId_markSheet b d t2 n2 _ (le_of_eq hrow1),
    countD_markSheet b d t2 n2 _ (le_of_eq hcol1), hcell.1, hcell.2⟩

theorem idempotent_marking_witness :
    countId "A12" (process_attendance "A12" "2026-01-01" "10:00:00" "m2" CloudOutcome.ok
      (Except.ok ()) (process_attendance "A12" "2026-01-01" "09:00:00" "m1" CloudOutcome.ok
        (Except.ok ()) initState)).sheet.rows = 1 ∧
    countD "2026-01-01" (process_attendance "A12" "2026-01-01" "10:00:00" "m2" CloudOutcome.ok
      (Except.ok ()) (process_attendance "A12" "2026-01-01" "09:00:00" "m1" CloudOutcome.ok
        (Except.ok ()) initState)).sheet.dateCols = 1 ∧
    getTime (process_attendance "A12" "2026-01-01" "10:00:00" "m2" CloudOutcome.ok
      (Except.ok ()) (process_attendance "A12" "2026-01-01" "09:00:00" "m1" CloudOutcome.ok
        (Except.ok ()) initState)).sheet "A12" "2026-01-01" = some "10:00:00" ∧
    cellCount (process_attendance "A12" "2026-01-01" "10:00:00" "m2" CloudOutcome.ok
      (Except.ok ()) (process_attendance "A12" "2026-01-01" "09:00:00" "m1" CloudOutcome.ok
        (Except.ok ()) initState)).sheet "A12" "2026-01-01" = 1 :=
  idempotent_marking "A12" "2026-01-01" "09:00:00" "10:00:00" "m1" "m2"
    CloudOutcome.ok CloudOutcome.ok (Except.ok ()) (Except.ok ()) initState
    (by decide) (by decide) (by decide)
    (by intro r hr; simp [initState] at hr)

/-- Claim C7: starting from a freshly initialized sheet, after any
sequence of scans with nonempty identifiers the date header columns
(which sit after the three fixed header columns) are exactly the first
occurrence of each distinct scanned date, in first-seen order: no
duplicates, one column per distinct date, and a scan on an
already-present date adds no column. -/
theorem date_column_uniqueness (scans : List Scan) (st : SysState)
    (hb : ∀ sc ∈ scans, sc.barcode ≠ "") (hinit : st.sheet.dateCols = []) :
    (processScans scans st).sheet.dateCols = dedupFirst (scans.map (fun sc => sc.dateStr)) ∧
    (processScans scans st).sheet.dateCols.Nodup ∧
    (∀ x, x ∈ (processScans scans st).sheet.dateCols ↔
      x ∈ scans.map (fun sc => sc.dateStr)) ∧
    (∀ x, x ∈ scans.map (fun sc => sc.dateStr) →
      countD x (processScans scans st).sheet.dateCols = 1) := by
  have h1 : (processScans scans st).sheet.dateCols =
      dedupFirst (scans.map (fun sc => sc.dateStr)) := by
    rw [processScans_dateCols scans st hb, hinit]
    rfl
  have hn : (processScans scans st).sheet.dateCols.Nodup := by
    rw [h1]
    exact nodup_foldDates [] _ List.nodup_nil
  have hmem : ∀ x, x ∈ (processScans scans st).sheet.dateCols ↔
      x ∈ scans.map (fun sc => sc.dateStr) := by
    intro x
    rw [h1]
    rw [show dedupFirst (scans.map (fun sc => sc.dateStr)) =
      foldDates [] (scans.map (fun sc => sc.dateStr)) from rfl]
    rw [mem_foldDates]
    simp
  refine ⟨h1, hn, hmem, ?_⟩
  intro x hx
  exact countD_eq_one_of_nodup_mem x _ hn ((hmem x).mpr hx)

theorem date_column_uniqueness_witness :
    (processScans
      [⟨"A12", "2026-01-01", "09:00:00", "m1", CloudOutcome.ok, Except.ok ()⟩,
       ⟨"B34", "2026-01-01", "09:05:00", "m2", CloudOutcome.ok, Except.ok ()⟩,
       ⟨"A12", "2026-01-02", "08:55:00", "m3", CloudOutcome.ok, Except.ok ()⟩]
      initState).sheet.dateCols = ["2026-01-01", "2026-01-02"] := by
  have h := (date_column_uniqueness
    [⟨"A12", "2026-01-01", "09:00:00", "m1", CloudOutcome.ok, Except.ok ()⟩,
     ⟨"B34", "2026-01-01", "09:05:00", "m2", CloudOutcome.ok, Except.ok ()⟩,
     ⟨"A12", "2026-01-02", "08:55:00", "m3", CloudOutcome.ok, Except.ok ()⟩]
    initState (by decide) rfl).1
  rw [h]
  rfl
